import Mathlib

/-!
# Verification of busca-pisos core behaviours

Shallow embedding of the core operations of the busca-pisos repository:

* `src/backend/scraping/middlewares.py` — the ScrapingAnt cascading proxy
  client (`ScrapingAntProxyMiddleware.process_request`);
* `src/backend/app/services/job_runner.py` — `JobRunnerService.execute_job`
  and `JobRunnerService.cancel_job`;
* `src/backend/app/tasks/scrapy_runner.py` — `update_job_execution_status`;
* `src/backend/app/services/scheduler.py` — `JobScheduler._calculate_next_run`
  and `JobScheduler._parse_cron_next_run`;
* `src/backend/app/tasks/job_scheduler.py` — `calculate_next_run`;
* `src/backend/scraping/spiders/municipios.py` — checkpoint / resume logic
  (`_should_resume`, `start_requests`, `spider_closed`, `_clean_state_files`,
  `_load_state`, `_save_final_state`, `_save_pending_requests`).

Database rows, the pickle files on disk and the Celery queue are modelled as
explicit state; datetimes are modelled as a record of calendar fields with
proleptic-Gregorian day arithmetic, mirroring Python `datetime` for the
operations the code uses (`replace`, `+ timedelta`, comparison).
-/

namespace BuscaPisos

/-! ## Cascading upstream client (`scraping/middlewares.py`)

`ScrapingAntProxyMiddleware.process_request` loops over the fixed list of five
ScrapingAnt configurations, issuing one HTTP attempt per loop iteration.  The
oracle `resp : Nat → Nat × String` gives, for the attempt made at
configuration index `i` (0-based), the HTTP status and response body received
(a transport exception is observationally the generic `else` branch: it is
covered by choosing any status outside the handled set, e.g. 500).

The run returns the outcome, the list of configuration indices actually
attempted, in order, and the number of 60-second concurrency-limit waits
performed (`time.sleep(60)` calls). -/

/-- The number of ScrapingAnt configurations in the `configs` list of
`process_request`. -/
def numConfigs : Nat := 5

/-- Outcome of `process_request`: either a `scrapy.http.HtmlResponse` built
from the body returned under some configuration index, or `None`. -/
inductive CascadeOutcome where
  | success (configIdx : Nat) (body : String)
  | giveUp
  deriving DecidableEq, Repr

/-- A finished run of `process_request`: outcome, list of configuration
indices attempted (in order), and number of 60s sleeps performed. -/
structure CascadeRun where
  outcome : CascadeOutcome
  attempts : List Nat
  sleeps : Nat
  deriving DecidableEq, Repr

/-- One loop execution of `process_request`, starting at configuration index
`i` with the `request._scrapingant_409_retry` flag equal to `retried`; `fuel`
is the number of configurations left to iterate over (the Python `for` loop
visits each remaining configuration once).  Branches mirror the source:
status 200 returns a response built from the body; 423, 422 and 404 continue
with the next configuration; 409 sleeps 60s and sets the flag if it was unset
(then `continue`s), otherwise just continues; any other status returns `None`
when at the last configuration and continues otherwise. -/
def cascadeAux (resp : Nat → Nat × String) : Nat → Bool → Nat → CascadeRun
  | _, _, 0 => ⟨.giveUp, [], 0⟩
  | i, retried, fuel + 1 =>
    let st := (resp i).1
    if st = 200 then
      ⟨.success i (resp i).2, [i], 0⟩
    else if st = 423 then
      let r := cascadeAux resp (i + 1) retried fuel
      ⟨r.outcome, i :: r.attempts, r.sleeps⟩
    else if st = 409 then
      if retried then
        let r := cascadeAux resp (i + 1) retried fuel
        ⟨r.outcome, i :: r.attempts, r.sleeps⟩
      else
        let r := cascadeAux resp (i + 1) true fuel
        ⟨r.outcome, i :: r.attempts, r.sleeps + 1⟩
    else if st = 422 then
      let r := cascadeAux resp (i + 1) retried fuel
      ⟨r.outcome, i :: r.attempts, r.sleeps⟩
    else if st = 404 then
      let r := cascadeAux resp (i + 1) retried fuel
      ⟨r.outcome, i :: r.attempts, r.sleeps⟩
    else
      if i = numConfigs - 1 then ⟨.giveUp, [i], 0⟩
      else
        let r := cascadeAux resp (i + 1) retried fuel
        ⟨r.outcome, i :: r.attempts, r.sleeps⟩

/-- `ScrapingAntProxyMiddleware.process_request` for an idealista.com URL:
run the cascade from configuration index 0 with the 409-retry flag unset. -/
def process_request (resp : Nat → Nat × String) : CascadeRun :=
  cascadeAux resp 0 false numConfigs

/-! ## Python `datetime` model

The scheduler code uses `datetime.utcnow()`, `replace(...)`, `+ timedelta`
and `<=` comparison.  A datetime is a record of calendar fields; day
arithmetic follows the proleptic Gregorian calendar exactly as Python's
`datetime` does.  (Python restricts years to 1..9999 and raises on
`replace` with out-of-range fields; the theorems below carry validity
hypotheses instead.) -/

/-- Gregorian leap-year test, as in Python's `calendar.isleap`. -/
def isLeap (y : Nat) : Bool := (y % 4 = 0 && y % 100 ≠ 0) || y % 400 = 0

/-- Days in month `m` of year `y` (months are 1-based). -/
def daysInMonth (y m : Nat) : Nat :=
  if m = 2 then (if isLeap y then 29 else 28)
  else if m = 4 ∨ m = 6 ∨ m = 9 ∨ m = 11 then 30
  else 31

/-- A Python `datetime.datetime` value (naive, UTC). -/
structure PyDateTime where
  year : Nat
  month : Nat
  day : Nat
  hour : Nat
  minute : Nat
  second : Nat
  microsecond : Nat
  deriving DecidableEq, Repr

/-- A datetime whose fields are in the ranges Python enforces. -/
def PyDateTime.Valid (t : PyDateTime) : Prop :=
  1 ≤ t.year ∧ 1 ≤ t.month ∧ t.month ≤ 12 ∧ 1 ≤ t.day ∧
  t.day ≤ daysInMonth t.year t.month ∧ t.hour ≤ 23 ∧ t.minute ≤ 59 ∧
  t.second ≤ 59 ∧ t.microsecond ≤ 999999

instance (t : PyDateTime) : Decidable t.Valid := by
  unfold PyDateTime.Valid; infer_instance

/-- Injective (on valid datetimes) encoding of a datetime as a single
natural number; Python's field-lexicographic datetime comparison coincides
with comparison of these keys. -/
def PyDateTime.key (t : PyDateTime) : Nat :=
  t.microsecond +
    1000000 * (t.second + 60 * (t.minute + 60 * (t.hour +
      24 * (t.day + 32 * (t.month + 13 * t.year)))))

/-- Python `<=` on datetimes. -/
def pyLe (t s : PyDateTime) : Prop := t.key ≤ s.key

/-- Python `<` on datetimes. -/
def pyLt (t s : PyDateTime) : Prop := t.key < s.key

instance (t s : PyDateTime) : Decidable (pyLe t s) := by unfold pyLe; infer_instance

instance (t s : PyDateTime) : Decidable (pyLt t s) := by unfold pyLt; infer_instance

/-- Move a datetime forward by one calendar day (`+ timedelta(days=1)`),
keeping the time-of-day fields. -/
def nextDate (t : PyDateTime) : PyDateTime :=
  if t.day < daysInMonth t.year t.month then { t with day := t.day + 1 }
  else if t.month < 12 then { t with month := t.month + 1, day := 1 }
  else { t with year := t.year + 1, month := 1, day := 1 }

/-- `t + timedelta(days=n)`. -/
def addDays : PyDateTime → Nat → PyDateTime
  | t, 0 => t
  | t, n + 1 => addDays (nextDate t) n

/-- `t + timedelta(hours=1)` (the scheduler only ever adds one hour). -/
def addOneHour (t : PyDateTime) : PyDateTime :=
  if t.hour < 23 then { t with hour := t.hour + 1 }
  else nextDate { t with hour := 0 }

/-- Number of leap years strictly before year `y` (i.e. in `1..y-1`). -/
def leapsBefore (y : Nat) : Nat := (y - 1) / 4 - (y - 1) / 100 + (y - 1) / 400

/-- Days in the months of year `y` strictly before month `m`. -/
def daysBeforeMonth (y : Nat) : Nat → Nat
  | 0 => 0
  | 1 => 0
  | m + 1 => daysBeforeMonth y m + daysInMonth y m

/-- Proleptic-Gregorian ordinal of the date (0001-01-01 is day 1), as in
Python's `datetime.toordinal`. -/
def dayNumber (t : PyDateTime) : Nat :=
  365 * (t.year - 1) + leapsBefore t.year + daysBeforeMonth t.year t.month + t.day

/-- Python `datetime.weekday()`: Monday = 0.  0001-01-01 is a Monday. -/
def weekday (t : PyDateTime) : Nat := (dayNumber t - 1) % 7

/-! ## Schedulers

Two independent next-run computations exist in the repository:
`JobScheduler._calculate_next_run` / `_parse_cron_next_run` in
`app/services/scheduler.py`, and the standalone `calculate_next_run` in
`app/tasks/job_scheduler.py`.  Both are embedded. -/

/-- Whitespace for Python `str.split()` with no argument. -/
def isPyWs (c : Char) : Bool := c = ' ' ∨ c = '\t' ∨ c = '\n' ∨ c = '\r'

/-- Character-list worker for `pySplit`; `acc` is the current token,
reversed. -/
def pySplitAux : List Char → List Char → List String
  | [], acc => if acc = [] then [] else [String.mk acc.reverse]
  | c :: cs, acc =>
    if isPyWs c then
      (if acc = [] then [] else [String.mk acc.reverse]) ++ pySplitAux cs []
    else pySplitAux cs (c :: acc)

/-- Python `str.split()` with no argument: split on whitespace runs,
discarding empty pieces. -/
def pySplit (s : String) : List String := pySplitAux s.toList []

/-- Python `str.isdigit()` restricted to ASCII: nonempty and all digits. -/
def pyIsdigit (s : String) : Bool := s.toList ≠ [] && s.toList.all Char.isDigit

/-- Python `int(...)` on a digit string. -/
def pyInt (s : String) : Nat :=
  s.toList.foldl (fun a c => a * 10 + (c.toNat - Char.toNat '0')) 0

/-- `JobScheduler._parse_cron_next_run` (`app/services/scheduler.py`):
split the cron expression; for a 5-field expression with numeric minute and
hour and `*` elsewhere, take today's occurrence of that minute:hour and roll
one day forward when that occurrence is `<=` the reference time; any other
shape falls back to one hour from the reference time.  (Python would raise
from `replace` if the numeric hour/minute were out of range; theorems about
this function assume in-range values.) -/
def parse_cron_next_run (cron_expression : String) (from_time : PyDateTime) :
    PyDateTime :=
  match pySplit cron_expression with
  | [minute, hour, day, month, wd] =>
    if pyIsdigit minute && pyIsdigit hour &&
        day = "*" && month = "*" && wd = "*" then
      let next_run : PyDateTime :=
        { from_time with
          hour := pyInt hour, minute := pyInt minute,
          second := 0, microsecond := 0 }
      if pyLe next_run from_time then addDays next_run 1 else next_run
    else addOneHour from_time
  | _ => addOneHour from_time

/-- `JobScheduler._calculate_next_run` (`app/services/scheduler.py`), with
`now` passed explicitly in place of `datetime.utcnow()`.  A cron expression
is used when truthy (present and nonempty); otherwise the branch selected by
`schedule_type` runs, defaulting to one hour from now. -/
def calculate_next_run_service (schedule_type : String)
    (cron_expression : Option String) (now : PyDateTime) : PyDateTime :=
  if (cron_expression.getD "") ≠ "" then
    parse_cron_next_run (cron_expression.getD "") now
  else if schedule_type = "daily" then
    addDays { now with hour := 9, minute := 0, second := 0, microsecond := 0 } 1
  else if schedule_type = "weekly" then
    let days_ahead := 7 - weekday now
    { addDays now days_ahead with
      hour := 9, minute := 0, second := 0, microsecond := 0 }
  else if schedule_type = "monthly" then
    let next_month := addDays { now with day := 1 } 32
    { next_month with
      day := 1, hour := 9, minute := 0, second := 0, microsecond := 0 }
  else addOneHour now

/-- `calculate_next_run` (`app/tasks/job_scheduler.py`), with `now` passed
explicitly in place of `datetime.utcnow()`.  Note: it never parses the cron
expression — the `custom` branch returns one hour from now. -/
def calculate_next_run_tasks (schedule_type : String)
    (cron_expression : Option String) (now : PyDateTime) : PyDateTime :=
  if schedule_type = "daily" then addDays now 1
  else if schedule_type = "weekly" then addDays now 7
  else if schedule_type = "monthly" then addDays now 30
  else if schedule_type = "custom" && (cron_expression.getD "") ≠ "" then
    addOneHour now
  else addOneHour now

/-! ## Job runner (`app/services/job_runner.py`, `app/tasks/scrapy_runner.py`)

`crawl_jobs` and `job_executions` rows, the Celery queue and the set of
revoked task ids are modelled as an explicit `World`.  Task ids are opaque
naturals (Celery uses UUID strings).  Timestamps are opaque naturals. -/

/-- A `crawl_jobs` row (the columns `execute_job` / `cancel_job` touch). -/
structure CrawlJob where
  job_id : Nat
  job_name : String
  spider_name : String
  start_urls : List String
  job_config : List (String × String)
  status : String
  deriving DecidableEq, Repr

/-- A `job_executions` row. -/
structure JobExecution where
  execution_id : Nat
  job_id : Nat
  status : String
  started_at : Nat
  completed_at : Option Nat
  items_scraped : Nat
  error_message : Option String
  execution_log : Option String
  celery_task_id : Option Nat
  deriving DecidableEq, Repr

/-- A `run_spider.delay(...)` submission sitting on the Celery queue. -/
structure TaskSubmission where
  task_id : Nat
  job_id : Nat
  spider_name : String
  start_urls : List String
  job_config : List (String × String)
  deriving DecidableEq, Repr

/-- The persistent store plus the Celery broker, as one explicit state. -/
structure World where
  jobs : List CrawlJob
  executions : List JobExecution
  queue : List TaskSubmission
  revoked : List Nat
  nextTaskId : Nat
  nextExecId : Nat
  deriving DecidableEq, Repr

/-- Decidable equality of `Except` results, for evaluating concrete runs. -/
instance instDecEqExcept {e a : Type} [DecidableEq e] [DecidableEq a] :
    DecidableEq (Except e a)
  | .error x, .error y =>
    if h : x = y then isTrue (by rw [h]) else isFalse (by simp [h])
  | .error _, .ok _ => isFalse (by simp)
  | .ok _, .error _ => isFalse (by simp)
  | .ok x, .ok y =>
    if h : x = y then isTrue (by rw [h]) else isFalse (by simp [h])

/-- `SELECT ... WHERE job_id = jid` with `scalar_one_or_none()` (rows have
unique primary keys, so the first match is the row). -/
def findJob (w : World) (jid : Nat) : Option CrawlJob :=
  w.jobs.find? (fun j => j.job_id = jid)

/-- `JobRunnerService.execute_job`: look the job up; `ValueError` when it is
missing or already running; otherwise enqueue `run_spider.delay(...)` with
the job's parameters and return the fresh task id together with the new
world.  No job or execution row is touched. -/
def execute_job (jid : Nat) (w : World) : Except String (World × Nat) :=
  match findJob w jid with
  | none => .error ("Job " ++ toString jid ++ " not found")
  | some job =>
    if job.status = "running" then
      .error ("Job " ++ toString jid ++ " is already running")
    else
      let tid := w.nextTaskId
      .ok ({ w with
              queue := w.queue ++
                [⟨tid, job.job_id, job.spider_name, job.start_urls,
                  job.job_config⟩],
              nextTaskId := tid + 1 }, tid)

/-- The world after `execute_job` (a raised `ValueError` leaves the session
untouched: no mutation statement precedes either `raise`). -/
def execute_job_world (jid : Nat) (w : World) : World :=
  match execute_job jid w with
  | .ok (w2, _) => w2
  | .error _ => w

/-- `update_job_execution_status` (`app/tasks/scrapy_runner.py`), run inside
the Celery task.  For status `running` it inserts a fresh
`job_executions` row carrying the task id (with `started_at` filled by the
column's `now()` default) and sets the job status; for any other status it
updates the execution rows matching the job id and task id and sets the job
status. -/
def update_job_execution_status (jid : Nat) (status : String) (tid : Nat)
    (now : Nat) (items_scraped : Nat) (error_message : Option String)
    (execution_log : Option String) (w : World) : World :=
  if status = "running" then
    { w with
      executions := w.executions ++
        [⟨w.nextExecId, jid, status, now, none, 0, none, none, some tid⟩],
      nextExecId := w.nextExecId + 1,
      jobs := w.jobs.map (fun j =>
        if j.job_id = jid then { j with status := status } else j) }
  else
    { w with
      executions := w.executions.map (fun (e : JobExecution) =>
        if e.job_id = jid ∧ e.celery_task_id = some tid then
          { e with
            status := status, completed_at := some now,
            items_scraped := items_scraped, error_message := error_message,
            execution_log := execution_log }
        else e),
      jobs := w.jobs.map (fun (j : CrawlJob) =>
        if j.job_id = jid then { j with status := status } else j) }

/-- `SELECT ... WHERE job_id = jid AND status = 'running' ORDER BY
started_at DESC LIMIT 1`: the running execution of the job with the largest
start time (the first such row when start times tie). -/
def latestRunningExecution (execs : List JobExecution) (jid : Nat) :
    Option JobExecution :=
  (execs.filter (fun e => e.job_id = jid ∧ e.status = "running")).foldl
    (fun acc e =>
      match acc with
      | none => some e
      | some b => if b.started_at < e.started_at then some e else some b)
    none

/-- `JobRunnerService.cancel_job`: `ValueError` when the job is missing or
not running; otherwise, when a running execution with a Celery task id
exists, revoke that task and mark the execution cancelled (completion time
now, message `Job cancelled by user`); in every case set the job status to
`cancelled`. -/
def cancel_job (jid : Nat) (now : Nat) (w : World) : Except String World :=
  match findJob w jid with
  | none => .error ("Job " ++ toString jid ++ " not found")
  | some job =>
    if job.status ≠ "running" then
      .error ("Job " ++ toString jid ++ " is not running")
    else
      let w1 : World :=
        match latestRunningExecution w.executions jid with
        | some ex =>
          match ex.celery_task_id with
          | some tid =>
            { w with
              revoked := w.revoked ++ [tid],
              executions := w.executions.map (fun (e : JobExecution) =>
                if e.execution_id = ex.execution_id then
                  { e with
                    status := "cancelled", completed_at := some now,
                    error_message := some "Job cancelled by user" }
                else e) }
          | none => w
        | none => w
      .ok { w1 with
            jobs := w1.jobs.map (fun (j : CrawlJob) =>
              if j.job_id = jid then { j with status := "cancelled" } else j) }

/-- The world after `cancel_job` (a raised `ValueError` leaves the session
untouched). -/
def cancel_job_world (jid : Nat) (now : Nat) (w : World) : World :=
  match cancel_job jid now w with
  | .ok w2 => w2
  | .error _ => w

/-! ## Crawl worker checkpointing (`scraping/spiders/municipios.py`)

The spider keeps three pickle files under `./scraping/crawls/municipios/`:
`pending_urls.pkl` (the saved frontier), `spider_state.pkl` (the final
state), and `checkpoint.pkl` (the periodic progress checkpoint).  The
on-disk condition of each is modelled explicitly, including an unreadable
state file and one that deserialises to something other than a dict
(`pickle.load` raising, or `.get` raising `AttributeError`, both land in
`_should_resume`'s `except` branch). -/

/-- Contents of `spider_state.pkl` when it deserialises to a dict, with the
keys `_save_final_state` writes; `.get` defaults are applied at the use
sites exactly as in the source. -/
structure SpiderStateMap where
  reason : Option String
  processed_count : Option Nat
  last_processed_url : Option String
  timestamp : Option Nat
  start_time : Option Nat
  quota_exhausted : Option Bool
  deriving DecidableEq, Repr

/-- What reading `spider_state.pkl` yields: `corrupt` when `pickle.load`
raises, `notMapping` when it returns a non-dict object (so `.get` raises),
`ok` when it is the expected mapping. -/
inductive StateLoad where
  | corrupt
  | notMapping
  | ok (st : SpiderStateMap)
  deriving DecidableEq, Repr

/-- The on-disk condition of the spider's three state files (`none` /
`false` meaning the file is absent). -/
structure SpiderFiles where
  stateFile : Option StateLoad
  pendingFile : Option (List String)
  checkpointFile : Bool
  deriving DecidableEq, Repr

/-- The spider's in-memory progress fields, plus the scheduler queue
contents `_save_pending_requests` reads. -/
structure SpiderVars where
  processed_count : Nat
  last_processed_url : Option String
  start_time : Nat
  quota_exhausted : Bool
  schedulerPending : List String
  deriving DecidableEq, Repr

/-- Filesystem side effects performed by the shutdown path, in order. -/
inductive FsEvent where
  | saveState (reason : String)
  | savePending
  | removeFile (name : String)
  deriving DecidableEq, Repr

/-- `MunicipiosSpider._should_resume` with `time.time()` passed explicitly:
`False` when the state file is absent or fails to load as a mapping;
`False` when the recorded reason is `finished`; `False` when the state is
older than 7 days; `True` otherwise. -/
def should_resume (fs : SpiderFiles) (now : Nat) : Bool :=
  match fs.stateFile with
  | none => false
  | some .corrupt => false
  | some .notMapping => false
  | some (.ok st) =>
    if st.reason = some "finished" then false
    else if now - st.timestamp.getD 0 > 7 * 24 * 3600 then false
    else true

/-- `MunicipiosSpider._load_state`: reload the progress counters from the
state file, with the source's `.get` defaults; a load failure leaves the
fields unchanged. -/
def load_state (fs : SpiderFiles) (now : Nat) (sp : SpiderVars) : SpiderVars :=
  match fs.stateFile with
  | some (.ok st) =>
    { sp with
      processed_count := st.processed_count.getD 0,
      last_processed_url := st.last_processed_url,
      start_time := st.start_time.getD now }
  | _ => sp

/-- `MunicipiosSpider._clean_state_files`: remove whichever of the three
state files exist, recording one removal event per existing file. -/
def clean_state_files (fs : SpiderFiles) : SpiderFiles × List FsEvent :=
  (⟨none, none, false⟩,
    (if fs.pendingFile.isSome then [FsEvent.removeFile "pending_urls.pkl"] else []) ++
    (if fs.stateFile.isSome then [FsEvent.removeFile "spider_state.pkl"] else []) ++
    (if fs.checkpointFile then [FsEvent.removeFile "checkpoint.pkl"] else []))

/-- Result of `MunicipiosSpider.start_requests`: the URLs requested, the
files left on disk, and the spider's progress fields afterwards. -/
structure StartupResult where
  requests : List String
  files : SpiderFiles
  vars : SpiderVars
  deriving DecidableEq, Repr

/-- `MunicipiosSpider.start_requests`: when `_should_resume()` holds, load
the saved state and, if `pending_urls.pkl` exists, request exactly the
saved frontier; with no pending file control falls through to the normal
start (the original start URLs) without cleaning anything.  When
`_should_resume()` fails, clean the state files and request the original
start URLs. -/
def start_requests (fs : SpiderFiles) (now : Nat) (sp : SpiderVars)
    (start_urls : List String) : StartupResult :=
  if should_resume fs now then
    let sp2 := load_state fs now sp
    match fs.pendingFile with
    | some pending => ⟨pending, fs, sp2⟩
    | none => ⟨start_urls, fs, sp2⟩
  else
    ⟨start_urls, (clean_state_files fs).1, sp⟩

/-- `MunicipiosSpider._save_final_state`: write `spider_state.pkl` with the
given reason, the progress fields and the current time. -/
def save_final_state (reason : String) (sp : SpiderVars) (now : Nat)
    (fs : SpiderFiles) : SpiderFiles × List FsEvent :=
  ({ fs with
     stateFile := some (.ok
       ⟨some reason, some sp.processed_count, sp.last_processed_url,
        some now, some sp.start_time, some sp.quota_exhausted⟩) },
   [FsEvent.saveState reason])

/-- `MunicipiosSpider._save_pending_requests`: when the scheduler holds
pending requests, write their URLs to `pending_urls.pkl`; with an empty
queue nothing is written. -/
def save_pending_requests (sp : SpiderVars) (fs : SpiderFiles) :
    SpiderFiles × List FsEvent :=
  if sp.schedulerPending ≠ [] then
    ({ fs with pendingFile := some sp.schedulerPending }, [FsEvent.savePending])
  else (fs, [])

/-- `MunicipiosSpider.spider_closed`: on reason `finished` clean all state
files; on `quota_exhausted` / `user_interrupt` / `shutdown` save the final
state and then the pending frontier; on any other reason save the final
state only. -/
def spider_closed (sp : SpiderVars) (fs : SpiderFiles) (reason : String)
    (now : Nat) : SpiderFiles × List FsEvent :=
  if reason = "finished" then
    clean_state_files fs
  else if reason = "quota_exhausted" ∨ reason = "user_interrupt" ∨
      reason = "shutdown" then
    let r1 := save_final_state reason sp now fs
    let r2 := save_pending_requests sp r1.1
    (r2.1, r1.2 ++ r2.2)
  else
    save_final_state reason sp now fs

/-! ## Concrete fixtures used by witnesses and counterexamples -/

/-- A job currently running (id 7). -/
def jobRunningEx : CrawlJob :=
  ⟨7, "nightly", "municipios",
   ["https://www.idealista.com/venta-viviendas/"], [], "running"⟩

/-- A job in its initial `pending` status (id 8). -/
def jobPendingEx : CrawlJob :=
  ⟨8, "adhoc", "municipios",
   ["https://www.idealista.com/venta-viviendas/"], [], "pending"⟩

/-- A world holding one running and one pending job, no executions. -/
def worldEx : World := ⟨[jobRunningEx, jobPendingEx], [], [], [], 100, 1⟩

/-- A job marked running whose only execution row already finished (so no
running execution exists for it). -/
def jobStaleEx : CrawlJob := ⟨9, "stale", "municipios", ["u"], [], "running"⟩

/-- World for `jobStaleEx`: the job says running, its one execution row says
`failed` (with a task id) — e.g. after a worker crash left the row final. -/
def worldStale : World :=
  ⟨[jobStaleEx], [⟨1, 9, "failed", 10, none, 0, none, none, some 55⟩],
   [], [], 200, 2⟩

/-- A running job (id 3) with a live running execution. -/
def jobCancelEx : CrawlJob := ⟨3, "live", "municipios", ["u"], [], "running"⟩

/-- The running execution row of `jobCancelEx`, carrying Celery task id 42. -/
def execRunningEx : JobExecution := ⟨1, 3, "running", 10, none, 0, none, none, some 42⟩

/-- World in which `cancel_job` has a running execution to revoke. -/
def worldCancelable : World := ⟨[jobCancelEx], [execRunningEx], [], [], 300, 2⟩

/-- Upstream oracle: the attempt under configuration 1 hits the concurrency
limit (409), every later attempt succeeds. -/
def resp409 : Nat → Nat × String := fun i => if i = 0 then (409, "limit") else (200, "ok")

/-- Upstream oracle: configurations 1..3 are blocked (423), configuration 4
succeeds. -/
def resp423 : Nat → Nat × String := fun i => if i < 3 then (423, "blocked") else (200, "doc")

/-- Spider progress fields at startup. -/
def spFresh : SpiderVars := ⟨0, none, 0, false, []⟩

/-- Spider progress fields at shutdown, with two URLs still queued. -/
def spMid : SpiderVars := ⟨42, some "https://www.idealista.com/x", 10, false, ["p1", "p2"]⟩

/-- A saved final state with reason `shutdown`, written at time 1000. -/
def stShutdown : SpiderStateMap :=
  ⟨some "shutdown", some 120, some "https://www.idealista.com/last",
   some 1000, some 900, some false⟩

/-- On-disk files: recent interrupted state, but no pending-URLs file. -/
def fsResumeNoPending : SpiderFiles := ⟨some (.ok stShutdown), none, true⟩

/-- On-disk files: recent interrupted state with a saved frontier. -/
def fsResumePending : SpiderFiles :=
  ⟨some (.ok stShutdown), some ["https://a", "https://b"], true⟩

/-- The spider's hard-coded start URL list. -/
def startUrlsEx : List String := ["https://www.idealista.com/venta-viviendas/"]

/-! ## Helper lemmas -/

/-- Every month length is between 28 and 31 days. -/
theorem daysInMonth_bounds (y m : Nat) :
    28 ≤ daysInMonth y m ∧ daysInMonth y m ≤ 31 := by
  unfold daysInMonth
  split_ifs <;> omega

/-- `addDays` distributes over addition of day counts. -/
theorem addDays_add (t : PyDateTime) (a b : Nat) :
    addDays t (a + b) = addDays (addDays t a) b := by
  induction a generalizing t with
  | zero => rw [Nat.zero_add]; rfl
  | succ n ih =>
    have h1 : n + 1 + b = (n + b) + 1 := by omega
    rw [h1]
    show addDays (nextDate t) (n + b) = addDays (addDays (nextDate t) n) b
    exact ih (nextDate t)

/-- Adding days that stay inside the current month only moves the day
field. -/
theorem addDays_within (t : PyDateTime) (n : Nat)
    (h : t.day + n ≤ daysInMonth t.year t.month) :
    addDays t n = { t with day := t.day + n } := by
  induction n generalizing t with
  | zero => rfl
  | succ n ih =>
    have hlt : t.day < daysInMonth t.year t.month := by omega
    show addDays (nextDate t) n = _
    rw [nextDate, if_pos hlt]
    rw [ih { t with day := t.day + 1 } (by simpa using by omega)]
    simp [Nat.add_assoc, Nat.add_comm 1 n]

end BuscaPisos

namespace BuscaPisos

set_option maxRecDepth 10000

/-! ## Claim theorems -/

/-- C1: dispatching a job whose current status is `running`
(`JobRunnerService.execute_job`) fails with the conflict error (`ValueError`
"already running", the spec's `ConflictError`) and performs no state
mutation: no execution row is created, no task is submitted, and no job
field is written — the job and execution stores are unchanged. -/
theorem execute_job_conflict_on_running (jid : Nat) (w : World) (job : CrawlJob)
    (hfind : findJob w jid = some job) (hrun : job.status = "running") :
    execute_job jid w = .error ("Job " ++ toString jid ++ " is already running") ∧
    execute_job_world jid w = w := by
  have h1 : execute_job jid w =
      .error ("Job " ++ toString jid ++ " is already running") := by
    simp [execute_job, hfind, hrun]
  exact ⟨h1, by simp [execute_job_world, h1]⟩

/-- C1 witness: the conflict error at the concrete running job 7. -/
theorem execute_job_conflict_on_running_witness :
    execute_job 7 worldEx = .error "Job 7 is already running" ∧
    execute_job_world 7 worldEx = worldEx :=
  execute_job_conflict_on_running 7 worldEx jobRunningEx (by decide) rfl

/-- C4: evaluation at the failing input.  The attempt under configuration 1
returns the concurrency-limit status 409 and all later attempts return 200.
The middleware sleeps once (60 s) but then issues its next attempt under
configuration 2: configuration 1 is attempted exactly once and never
retried, contradicting the claim (and the source's own comment "Retry the
same configuration after waiting"). -/
theorem process_request_409_no_same_config_retry :
    process_request resp409 = ⟨.success 1 "ok", [0, 1], 1⟩ ∧
    (process_request resp409).attempts.count 0 = 1 := by decide

/-- C5: when the attempts under configurations 1..k return blocked (423)
and the attempt under configuration k+1 returns 200, `process_request`
returns the document built from configuration k+1's body, the attempted
configurations are exactly 1..k+1 in order, and no attempt is issued under
any later configuration. -/
theorem cascade_blocked_until_success (resp : Nat → Nat × String) (k : Nat)
    (hk : k < numConfigs)
    (hb : ∀ i, i < k → (resp i).1 = 423)
    (hs : (resp k).1 = 200) :
    process_request resp = ⟨.success k (resp k).2, List.range (k + 1), 0⟩ ∧
    ∀ j, j ∈ (process_request resp).attempts → j ≤ k := by
  have hk5 : k < 5 := hk
  have main : process_request resp = ⟨.success k (resp k).2, List.range (k + 1), 0⟩ := by
    interval_cases k <;>
      [skip;
       (have h0 := hb 0 (by omega));
       (have h0 := hb 0 (by omega); have h1 := hb 1 (by omega));
       (have h0 := hb 0 (by omega); have h1 := hb 1 (by omega);
        have h2 := hb 2 (by omega));
       (have h0 := hb 0 (by omega); have h1 := hb 1 (by omega);
        have h2 := hb 2 (by omega); have h3 := hb 3 (by omega))] <;>
      simp_all [process_request, cascadeAux, numConfigs, List.range_succ]
  refine ⟨main, ?_⟩
  intro j hj
  rw [main] at hj
  simp only [List.mem_range] at hj
  omega

/-- C5 witness: three blocked configurations followed by success under
configuration 4; the 5th configuration is never attempted. -/
theorem cascade_blocked_until_success_witness :
    process_request resp423 = ⟨.success 3 "doc", [0, 1, 2, 3], 0⟩ :=
  ((cascade_blocked_until_success resp423 3 (by decide)
      (fun i hi => by simp [resp423, hi]) rfl).1).trans (by decide)

/-- C10: `_should_resume` absorbs every bad on-disk condition of the state
file — absent, unreadable by `pickle.load`, or deserialising to something
other than the expected mapping — returning `False` (fresh start) rather
than propagating an exception. -/
theorem should_resume_false_on_unloadable_state (fs : SpiderFiles) (now : Nat)
    (h : fs.stateFile = none ∨ fs.stateFile = some .corrupt ∨
      fs.stateFile = some .notMapping) :
    should_resume fs now = false := by
  rcases h with h | h | h <;> simp [should_resume, h]

/-- C10 witness: a state file `pickle.load` cannot read forces a fresh
start. -/
theorem should_resume_false_on_unloadable_state_witness :
    should_resume ⟨some .corrupt, none, false⟩ 0 = false :=
  should_resume_false_on_unloadable_state ⟨some .corrupt, none, false⟩ 0
    (Or.inr (Or.inl rfl))

/-- Setting the status of the job with id `jid` via the map
`update_job_execution_status` / `cancel_job` perform leaves a job list in
which the job found under id `jid` has the new status. -/
theorem find?_status_map (jobs : List CrawlJob) (jid : Nat) (st : String)
    (job : CrawlJob) (h : jobs.find? (fun j => j.job_id = jid) = some job) :
    ((jobs.map (fun j => if j.job_id = jid then { j with status := st } else j)).find?
      (fun j => j.job_id = jid)).map CrawlJob.status = some st := by
  induction jobs with
  | nil => simp at h
  | cons a t ih =>
    by_cases ha : a.job_id = jid
    · simp [List.find?, ha]
    · rw [List.find?] at h
      simp only [ha, decide_False] at h
      rw [List.map_cons, if_neg ha, List.find?]
      simp only [ha, decide_False]
      exact ih h

/-- C2 counterexample: dispatching the pending job 8 succeeds, but when
`execute_job` returns no execution row exists and the job status is still
`pending` — the transition to `running` and the execution row are not
effects of dispatch. -/
theorem execute_job_sync_effects_cex :
    execute_job 8 worldEx = .ok (execute_job_world 8 worldEx, 100) ∧
    (execute_job_world 8 worldEx).executions = [] ∧
    (findJob (execute_job_world 8 worldEx) 8).map CrawlJob.status = some "pending" := by
  decide

/-- C2 amended: dispatching an existing, non-running job only submits a
`run_spider` task with the job's parameters and returns the fresh task id;
the job and execution stores are untouched when dispatch returns.  The
execution row in status `running` carrying the task handle, and the job's
transition to `running`, are produced later by the dispatched task itself
(`update_job_execution_status(job_id, "running", task_id)`). -/
theorem execute_job_defers_state_to_task (jid : Nat) (w : World)
    (job : CrawlJob) (now : Nat)
    (hfind : findJob w jid = some job) (hns : job.status ≠ "running") :
    execute_job jid w =
      .ok ({ w with
             queue := w.queue ++
               [⟨w.nextTaskId, job.job_id, job.spider_name, job.start_urls,
                 job.job_config⟩],
             nextTaskId := w.nextTaskId + 1 }, w.nextTaskId) ∧
    (execute_job_world jid w).jobs = w.jobs ∧
    (execute_job_world jid w).executions = w.executions ∧
    (findJob (update_job_execution_status jid "running" w.nextTaskId now 0
        none none (execute_job_world jid w)) jid).map CrawlJob.status =
      some "running" ∧
    ∃ e ∈ (update_job_execution_status jid "running" w.nextTaskId now 0
        none none (execute_job_world jid w)).executions,
      e.job_id = jid ∧ e.status = "running" ∧
      e.celery_task_id = some w.nextTaskId := by
  have h1 : execute_job jid w =
      .ok ({ w with
             queue := w.queue ++
               [⟨w.nextTaskId, job.job_id, job.spider_name, job.start_urls,
                 job.job_config⟩],
             nextTaskId := w.nextTaskId + 1 }, w.nextTaskId) := by
    simp [execute_job, hfind, hns]
  have hw : (execute_job_world jid w).jobs = w.jobs ∧
      (execute_job_world jid w).executions = w.executions := by
    simp [execute_job_world, h1]
  refine ⟨h1, hw.1, hw.2, ?_, ?_⟩
  · show ((update_job_execution_status jid "running" w.nextTaskId now 0
        none none (execute_job_world jid w)).jobs.find?
        (fun j => j.job_id = jid)).map CrawlJob.status = some "running"
    rw [update_job_execution_status, if_pos rfl]
    have hjobs : (execute_job_world jid w).jobs = w.jobs := hw.1
    simp only [hjobs]
    exact find?_status_map w.jobs jid "running" job hfind
  · refine ⟨⟨(execute_job_world jid w).nextExecId, jid, "running", now,
      none, 0, none, none, some w.nextTaskId⟩, ?_, rfl, rfl, rfl⟩
    rw [update_job_execution_status, if_pos rfl]
    simp

/-- C2 witness: the deferred effects at the concrete pending job 8. -/
theorem execute_job_defers_state_to_task_witness :
    (execute_job_world 8 worldEx).executions = [] ∧
    (findJob (update_job_execution_status 8 "running" 100 77 0 none none
        (execute_job_world 8 worldEx)) 8).map CrawlJob.status = some "running" :=
  ⟨((execute_job_defers_state_to_task 8 worldEx jobPendingEx 77 (by decide)
      (by decide)).2.2.1).trans rfl,
   (execute_job_defers_state_to_task 8 worldEx jobPendingEx 77 (by decide)
      (by decide)).2.2.2.1⟩

/-- The element selected by the `latestRunningExecution` fold comes from
the accumulator or from the list. -/
theorem foldl_pick_mem (l : List JobExecution) (acc : Option JobExecution)
    (b : JobExecution)
    (h : l.foldl (fun acc e =>
      match acc with
      | none => some e
      | some c => if c.started_at < e.started_at then some e else some c)
      acc = some b) :
    acc = some b ∨ b ∈ l := by
  induction l generalizing acc with
  | nil => exact Or.inl h
  | cons e t ih =>
    rw [List.foldl_cons] at h
    rcases ih _ h with h1 | h1
    · cases hacc : acc with
      | none =>
        rw [hacc] at h1
        have h2 : some e = some b := h1
        simp only [Option.some.injEq] at h2
        exact Or.inr (by simp [h2])
      | some c =>
        rw [hacc] at h1
        have h2 : (if c.started_at < e.started_at then some e else some c) =
            some b := h1
        by_cases hlt : c.started_at < e.started_at
        · rw [if_pos hlt] at h2
          simp only [Option.some.injEq] at h2
          exact Or.inr (by simp [h2])
        · rw [if_neg hlt] at h2
          exact Or.inl h2
    · exact Or.inr (List.mem_cons_of_mem _ h1)

/-- The latest running execution is one of the stored execution rows. -/
theorem latestRunningExecution_mem (execs : List JobExecution) (jid : Nat)
    (ex : JobExecution) (h : latestRunningExecution execs jid = some ex) :
    ex ∈ execs := by
  unfold latestRunningExecution at h
  rcases foldl_pick_mem _ none ex h with h1 | h1
  · exact absurd h1 (by simp)
  · exact (List.mem_filter.mp h1).1

/-- C3 counterexample: job 9 is `running` but its only execution row is
already `failed`, so no running execution exists.  `cancel_job` succeeds
and cancels the job, yet the latest execution keeps status `failed` and no
completion timestamp is written — contradicting the claim's "regardless of
whether a running Execution record with a task handle exists". -/
theorem cancel_job_latest_execution_cex :
    (cancel_job 9 20 worldStale).toOption = some (cancel_job_world 9 20 worldStale) ∧
    (findJob (cancel_job_world 9 20 worldStale) 9).map CrawlJob.status =
      some "cancelled" ∧
    ((cancel_job_world 9 20 worldStale).executions.map JobExecution.status) =
      ["failed"] ∧
    ((cancel_job_world 9 20 worldStale).executions.map JobExecution.completed_at) =
      [none] := by decide

/-- C3 amended: `cancel_job` on a job that is not `running` fails with the
not-running `ValueError` (the spec's `NotRunningError`) leaving the state
unchanged.  On a running job it always sets the job status to `cancelled`;
the latest running execution is additionally marked `cancelled` with a
completion timestamp, the message "Job cancelled by user" and its task
revoked — but only when such an execution with a task handle exists; with
no running execution, or one without a task id, the execution rows are left
untouched. -/
theorem cancel_job_spec (jid now : Nat) (w : World) (job : CrawlJob)
    (hfind : findJob w jid = some job) :
    (job.status ≠ "running" →
      cancel_job jid now w = .error ("Job " ++ toString jid ++ " is not running") ∧
      cancel_job_world jid now w = w) ∧
    (job.status = "running" →
      (findJob (cancel_job_world jid now w) jid).map CrawlJob.status =
        some "cancelled" ∧
      (∀ ex tid, latestRunningExecution w.executions jid = some ex →
        ex.celery_task_id = some tid →
        tid ∈ (cancel_job_world jid now w).revoked ∧
        ∃ e ∈ (cancel_job_world jid now w).executions,
          e.execution_id = ex.execution_id ∧ e.status = "cancelled" ∧
          e.completed_at = some now ∧
          e.error_message = some "Job cancelled by user") ∧
      (latestRunningExecution w.executions jid = none →
        (cancel_job_world jid now w).executions = w.executions) ∧
      (∀ ex, latestRunningExecution w.executions jid = some ex →
        ex.celery_task_id = none →
        (cancel_job_world jid now w).executions = w.executions)) := by
  constructor
  · intro hns
    have h1 : cancel_job jid now w =
        .error ("Job " ++ toString jid ++ " is not running") := by
      simp [cancel_job, hfind, hns]
    exact ⟨h1, by simp [cancel_job_world, h1]⟩
  · intro hrun
    cases hlr : latestRunningExecution w.executions jid with
    | none =>
      have h1 : cancel_job jid now w =
          .ok { w with jobs := w.jobs.map (fun j =>
            if j.job_id = jid then { j with status := "cancelled" } else j) } := by
        simp [cancel_job, hfind, hrun, hlr]
      have hw : cancel_job_world jid now w =
          { w with jobs := w.jobs.map (fun j =>
            if j.job_id = jid then { j with status := "cancelled" } else j) } := by
        simp [cancel_job_world, h1]
      refine ⟨?_, ?_, ?_, ?_⟩
      · rw [hw]
        exact find?_status_map w.jobs jid "cancelled" job hfind
      · intro ex tid hex _; exact absurd hex (by simp)
      · intro _; rw [hw]
      · intro ex hex; exact absurd hex (by simp)
    | some ex =>
      cases htid : ex.celery_task_id with
      | none =>
        have h1 : cancel_job jid now w =
            .ok { w with jobs := w.jobs.map (fun j =>
              if j.job_id = jid then { j with status := "cancelled" } else j) } := by
          simp [cancel_job, hfind, hrun, hlr, htid]
        have hw : cancel_job_world jid now w =
            { w with jobs := w.jobs.map (fun j =>
              if j.job_id = jid then { j with status := "cancelled" } else j) } := by
          simp [cancel_job_world, h1]
        refine ⟨?_, ?_, ?_, ?_⟩
        · rw [hw]
          exact find?_status_map w.jobs jid "cancelled" job hfind
        · intro ex2 tid hex htid2
          cases hex
          rw [htid] at htid2
          exact absurd htid2 (by simp)
        · intro hnone; exact absurd hnone (by simp)
        · intro _ _ _; rw [hw]
      | some tid =>
        have h1 : cancel_job jid now w =
            .ok { w with
              revoked := w.revoked ++ [tid],
              executions := w.executions.map (fun e =>
                if e.execution_id = ex.execution_id then
                  { e with
                    status := "cancelled", completed_at := some now,
                    error_message := some "Job cancelled by user" }
                else e),
              jobs := w.jobs.map (fun j =>
                if j.job_id = jid then { j with status := "cancelled" } else j) } := by
          simp [cancel_job, hfind, hrun, hlr, htid]
        have hw : cancel_job_world jid now w =
            { w with
              revoked := w.revoked ++ [tid],
              executions := w.executions.map (fun e =>
                if e.execution_id = ex.execution_id then
                  { e with
                    status := "cancelled", completed_at := some now,
                    error_message := some "Job cancelled by user" }
                else e),
              jobs := w.jobs.map (fun j =>
                if j.job_id = jid then { j with status := "cancelled" } else j) } := by
          simp [cancel_job_world, h1]
        refine ⟨?_, ?_, ?_, ?_⟩
        · rw [hw]
          exact find?_status_map w.jobs jid "cancelled" job hfind
        · intro ex2 tid2 hex htid2
          cases hex
          rw [htid] at htid2
          cases htid2
          constructor
          · rw [hw]; simp
          · refine ⟨{ ex with
                status := "cancelled", completed_at := some now,
                error_message := some "Job cancelled by user" }, ?_, rfl, rfl, rfl, rfl⟩
            rw [hw]
            have hmem : ex ∈ w.executions :=
              latestRunningExecution_mem w.executions jid ex hlr
            have := List.mem_map_of_mem (fun e =>
              if e.execution_id = ex.execution_id then
                { e with
                  status := "cancelled", completed_at := some now,
                  error_message := some "Job cancelled by user" }
              else e) hmem
            simpa using this
        · intro hnone; exact absurd hnone (by simp)
        · intro ex2 hex htid2
          cases hex
          rw [htid] at htid2
          exact absurd htid2 (by simp)

/-- C3 witness: at the concrete running job 3 with a live running execution
carrying task id 42, cancel marks the job cancelled, revokes task 42 and
cancels the execution row; and at the stale-but-not-running job 8, cancel
fails with the not-running error leaving the world unchanged. -/
theorem cancel_job_spec_witness :
    (findJob (cancel_job_world 3 99 worldCancelable) 3).map CrawlJob.status =
      some "cancelled" ∧
    42 ∈ (cancel_job_world 3 99 worldCancelable).revoked ∧
    (∃ e ∈ (cancel_job_world 3 99 worldCancelable).executions,
      e.execution_id = 1 ∧ e.status = "cancelled" ∧
      e.completed_at = some 99 ∧ e.error_message = some "Job cancelled by user") ∧
    cancel_job 8 5 worldEx = .error "Job 8 is not running" := by
  have h := cancel_job_spec 3 99 worldCancelable jobCancelEx (by decide)
  have h2 := (h.2 rfl).2.1 execRunningEx 42 (by decide) rfl
  have h3 := cancel_job_spec 8 5 worldEx jobPendingEx (by decide)
  exact ⟨(h.2 rfl).1, h2.1, h2.2, (h3.1 (by decide)).1⟩

/-- C6 counterexample: a recent interrupted state file but no pending-URLs
file.  The resume decision holds, yet the worker issues the original start
URLs rather than a frontier, and clears no checkpoint artifacts. -/
theorem startup_resume_without_pending_cex :
    should_resume fsResumeNoPending 1000 = true ∧
    (start_requests fsResumeNoPending 1000 spFresh startUrlsEx).requests =
      startUrlsEx ∧
    (start_requests fsResumeNoPending 1000 spFresh startUrlsEx).files =
      fsResumeNoPending := by decide

/-- C6 amended: the startup decision resolves to resume exactly when the
state file exists, loads as the expected mapping, records a reason other
than `finished`, and is at most 7 days old.  On resume the worker reloads
processed-count and last URL and, when the pending-URLs file exists, issues
requests for exactly the saved frontier; when the pending file is absent it
falls through to the original start URLs without clearing checkpoint
artifacts.  When the decision fails it clears all checkpoint artifacts and
issues the original start URLs. -/
theorem startup_decision_spec (fs : SpiderFiles) (now : Nat) (sp : SpiderVars)
    (su : List String) :
    (should_resume fs now = true ↔
      ∃ st, fs.stateFile = some (.ok st) ∧ st.reason ≠ some "finished" ∧
        now - st.timestamp.getD 0 ≤ 7 * 24 * 3600) ∧
    (∀ st p, fs.stateFile = some (.ok st) → should_resume fs now = true →
      fs.pendingFile = some p →
      start_requests fs now sp su =
        ⟨p, fs,
         { sp with
           processed_count := st.processed_count.getD 0,
           last_processed_url := st.last_processed_url,
           start_time := st.start_time.getD now }⟩) ∧
    (should_resume fs now = true → fs.pendingFile = none →
      (start_requests fs now sp su).requests = su ∧
      (start_requests fs now sp su).files = fs) ∧
    (should_resume fs now = false →
      start_requests fs now sp su = ⟨su, ⟨none, none, false⟩, sp⟩) := by
  obtain ⟨sf, pf, cf⟩ := fs
  refine ⟨?_, ?_, ?_, ?_⟩
  · cases sf with
    | none => simp [should_resume]
    | some sl =>
      cases sl with
      | corrupt => simp [should_resume]
      | notMapping => simp [should_resume]
      | ok st =>
        by_cases hr : st.reason = some "finished"
        · simp [should_resume, hr]
        · by_cases hage : now - st.timestamp.getD 0 > 7 * 24 * 3600
          · simp [should_resume, hr, hage]
            omega
          · simp [should_resume, hr, hage]
            omega
  · intro st p hsf hres hp
    subst hsf
    subst hp
    simp only [start_requests, hres, if_true, load_state]
  · intro hres hp
    subst hp
    simp [start_requests, hres]
  · intro hres
    simp [start_requests, hres, clean_state_files]

/-- C6 witness: resume with a saved frontier requests exactly that
frontier and reloads the counters; a missing state file forces the
fresh-start path. -/
theorem startup_decision_spec_witness :
    should_resume fsResumePending 1000 = true ∧
    start_requests fsResumePending 1000 spFresh startUrlsEx =
      ⟨["https://a", "https://b"], fsResumePending,
       ⟨120, some "https://www.idealista.com/last", 900, false, []⟩⟩ ∧
    start_requests ⟨none, none, false⟩ 0 spFresh startUrlsEx =
      ⟨startUrlsEx, ⟨none, none, false⟩, spFresh⟩ := by
  have h := startup_decision_spec fsResumePending 1000 spFresh startUrlsEx
  have hres : should_resume fsResumePending 1000 = true :=
    h.1.mpr ⟨stShutdown, rfl, by decide, by decide⟩
  have h2 := startup_decision_spec ⟨none, none, false⟩ 0 spFresh startUrlsEx
  refine ⟨hres, ?_, h2.2.2.2 (by decide)⟩
  exact (h.2.1 stShutdown ["https://a", "https://b"] rfl hres rfl).trans (by decide)

/-- C7 counterexample: closing with reason `finished` performs no state
write at all — in particular no CheckpointState with reason `finished` is
persisted, contradicting the claim's "persists a CheckpointState with
reason 'finished'"; the code only deletes the artifact files. -/
theorem spider_closed_finished_no_save_cex :
    FsEvent.saveState "finished" ∉
      (spider_closed spMid fsResumePending "finished" 500).2 := by decide

/-- C7 amended: when the worker closes with reason `finished` it persists
nothing (no state write of any reason occurs); it deletes the pending-URLs,
state and checkpoint files, so no artifacts remain, the resume decision
fails afterwards, and a subsequent startup issues the original start
URLs. -/
theorem spider_closed_finished_cleans (sp : SpiderVars) (fs : SpiderFiles)
    (now t2 : Nat) (sp2 : SpiderVars) (su : List String) :
    (spider_closed sp fs "finished" now).1 = ⟨none, none, false⟩ ∧
    (∀ r, FsEvent.saveState r ∉ (spider_closed sp fs "finished" now).2) ∧
    should_resume (spider_closed sp fs "finished" now).1 t2 = false ∧
    start_requests (spider_closed sp fs "finished" now).1 t2 sp2 su =
      ⟨su, ⟨none, none, false⟩, sp2⟩ := by
  refine ⟨rfl, ?_, rfl, rfl⟩
  intro r
  show FsEvent.saveState r ∉ (clean_state_files fs).2
  simp only [clean_state_files, List.mem_append]
  push_neg
  refine ⟨⟨?_, ?_⟩, ?_⟩ <;> split_ifs <;> simp

/-- C7 witness: the concrete mid-crawl state closed with `finished` leaves
no artifacts and no state write, and the next startup does not resume. -/
theorem spider_closed_finished_cleans_witness :
    (spider_closed spMid fsResumePending "finished" 500).1 = ⟨none, none, false⟩ ∧
    FsEvent.saveState "shutdown" ∉
      (spider_closed spMid fsResumePending "finished" 500).2 ∧
    should_resume (spider_closed spMid fsResumePending "finished" 500).1 9999 =
      false :=
  ⟨(spider_closed_finished_cleans spMid fsResumePending 500 9999 spFresh
      startUrlsEx).1,
   (spider_closed_finished_cleans spMid fsResumePending 500 9999 spFresh
      startUrlsEx).2.1 "shutdown",
   (spider_closed_finished_cleans spMid fsResumePending 500 9999 spFresh
      startUrlsEx).2.2.1⟩

/-- Adding 32 days to the first of a month lands on day
`33 - (length of the current month)` of the following month. -/
theorem addDays_first_32 (t : PyDateTime) (hm2 : t.month ≤ 12) (hd : t.day = 1) :
    addDays t 32 =
      { t with
        year := if t.month = 12 then t.year + 1 else t.year,
        month := if t.month = 12 then 1 else t.month + 1,
        day := 33 - daysInMonth t.year t.month } := by
  obtain ⟨y, m, d, hh, mi, ss, us⟩ := t
  simp only at hm2 hd ⊢
  subst hd
  obtain ⟨hD1, hD2⟩ := daysInMonth_bounds y m
  have h32 : (32 : Nat) = (daysInMonth y m - 1) +
      ((32 - daysInMonth y m) + 1) := by omega
  rw [h32, addDays_add]
  rw [addDays_within ⟨y, m, 1, hh, mi, ss, us⟩ (daysInMonth y m - 1)
    (by simp; omega)]
  have hday : (1 : Nat) + (daysInMonth y m - 1) = daysInMonth y m := by omega
  simp only [hday]
  show addDays (nextDate ⟨y, m, daysInMonth y m, hh, mi, ss, us⟩)
      (32 - daysInMonth y m) = _
  have hnd : nextDate ⟨y, m, daysInMonth y m, hh, mi, ss, us⟩ =
      if m = 12 then ⟨y + 1, 1, 1, hh, mi, ss, us⟩
      else ⟨y, m + 1, 1, hh, mi, ss, us⟩ := by
    simp only [nextDate]
    rw [if_neg (by simp)]
    by_cases hm : m = 12
    · simp [hm]
    · simp [hm, Nat.lt_of_le_of_ne hm2 hm]
  rw [hnd]
  by_cases hm : m = 12
  · subst hm
    rw [if_pos rfl]
    rw [addDays_within ⟨y + 1, 1, 1, hh, mi, ss, us⟩ (32 - daysInMonth y 12)
      (by simp; have := (daysInMonth_bounds (y + 1) 1).1; omega)]
    simp [PyDateTime.mk.injEq]
    omega
  · rw [if_neg hm]
    rw [addDays_within ⟨y, m + 1, 1, hh, mi, ss, us⟩ (32 - daysInMonth y m)
      (by simp; have := (daysInMonth_bounds y (m + 1)).1; omega)]
    simp [hm, PyDateTime.mk.injEq]
    omega

/-- C9 counterexample: the task-module implementation of `computeNextRun`
for a monthly schedule adds 30 days, keeping the time of day — at
2025-01-15 10:23 it yields 2025-02-14 10:23, not the first day of the
following month at 09:00. -/
theorem monthly_next_run_tasks_cex :
    calculate_next_run_tasks "monthly" none ⟨2025, 1, 15, 10, 23, 0, 0⟩ =
      ⟨2025, 2, 14, 10, 23, 0, 0⟩ ∧
    (⟨2025, 2, 14, 10, 23, 0, 0⟩ : PyDateTime) ≠ ⟨2025, 2, 1, 9, 0, 0, 0⟩ := by
  decide

/-- C9 amended: the service implementation
(`JobScheduler._calculate_next_run`) for schedule type monthly with no cron
expression returns the first day of the month following `fromTime`'s month
at 09:00:00.000000, which is strictly greater than `fromTime`; the
task-module `calculate_next_run` instead returns `fromTime` plus 30 days. -/
theorem service_monthly_first_of_next_month (now : PyDateTime) (hv : now.Valid) :
    calculate_next_run_service "monthly" none now =
      ⟨if now.month = 12 then now.year + 1 else now.year,
       if now.month = 12 then 1 else now.month + 1, 1, 9, 0, 0, 0⟩ ∧
    pyLt now (calculate_next_run_service "monthly" none now) := by
  obtain ⟨hy, hm1, hm2, hd1, hd2, hh23, hmi, hs, hus⟩ := hv
  have hstep : calculate_next_run_service "monthly" none now =
      { addDays { now with day := 1 } 32 with
        day := 1, hour := 9, minute := 0, second := 0, microsecond := 0 } := rfl
  have main : calculate_next_run_service "monthly" none now =
      ⟨if now.month = 12 then now.year + 1 else now.year,
       if now.month = 12 then 1 else now.month + 1, 1, 9, 0, 0, 0⟩ := by
    rw [hstep, addDays_first_32 { now with day := 1 } (by simpa using hm2) rfl]
  refine ⟨main, ?_⟩
  rw [main]
  have hdim := (daysInMonth_bounds now.year now.month).2
  by_cases hm : now.month = 12
  · simp [pyLt, PyDateTime.key, hm]
    omega
  · simp [pyLt, PyDateTime.key, hm]
    omega

/-- C9 witness: the service scheduler at 2025-01-15 10:23 schedules
2025-02-01 09:00, strictly later. -/
theorem service_monthly_first_of_next_month_witness :
    calculate_next_run_service "monthly" none ⟨2025, 1, 15, 10, 23, 0, 0⟩ =
      ⟨2025, 2, 1, 9, 0, 0, 0⟩ ∧
    pyLt ⟨2025, 1, 15, 10, 23, 0, 0⟩ (⟨2025, 2, 1, 9, 0, 0, 0⟩ : PyDateTime) := by
  have h := service_monthly_first_of_next_month ⟨2025, 1, 15, 10, 23, 0, 0⟩
    (by decide)
  exact ⟨h.1.trans (by decide), by decide⟩

/-- C8 counterexample: (a) at `fromTime` exactly 09:00:00.000000 the service
cron parser rolls to the next day, although the next occurrence of 9:00 at
or after `fromTime` is `fromTime` itself; (b) the task-module
implementation ignores the cron expression entirely and returns `fromTime`
plus one hour instead of 09:00 on day D+1. -/
theorem cron_next_run_cex :
    parse_cron_next_run "0 9 * * *" ⟨2025, 3, 10, 9, 0, 0, 0⟩ =
      ⟨2025, 3, 11, 9, 0, 0, 0⟩ ∧
    (⟨2025, 3, 11, 9, 0, 0, 0⟩ : PyDateTime) ≠ ⟨2025, 3, 10, 9, 0, 0, 0⟩ ∧
    calculate_next_run_tasks "custom" (some "0 9 * * *")
        ⟨2025, 3, 10, 9, 5, 0, 0⟩ = ⟨2025, 3, 10, 10, 5, 0, 0⟩ ∧
    (⟨2025, 3, 10, 10, 5, 0, 0⟩ : PyDateTime) ≠ ⟨2025, 3, 11, 9, 0, 0, 0⟩ := by
  decide

/-- C8 amended: for a 5-field cron expression fixing an in-range numeric
minute and hour with wildcards elsewhere, the service cron parser
(`JobScheduler._parse_cron_next_run`) returns today's occurrence of that
minute:hour when that instant is strictly after `fromTime`, and the next
day's occurrence otherwise (so at exactly hh:mm:00 it already rolls over);
the result is always strictly in the future.  In particular `0 9 * * *` at
09:05 on day D yields 09:00 on day D+1.  (The task-module
`calculate_next_run` does not implement this computation at all.) -/
theorem parse_cron_fixed_minute_hour (c ms hs : String) (t : PyDateTime)
    (hsplit : pySplit c = [ms, hs, "*", "*", "*"])
    (hmd : pyIsdigit ms = true) (hhd : pyIsdigit hs = true)
    (hh23 : pyInt hs ≤ 23) (hm59 : pyInt ms ≤ 59) (hv : t.Valid) :
    parse_cron_next_run c t =
      (if pyLt t { t with hour := pyInt hs, minute := pyInt ms, second := 0, microsecond := 0 }
       then { t with hour := pyInt hs, minute := pyInt ms, second := 0, microsecond := 0 }
       else addDays { t with hour := pyInt hs, minute := pyInt ms, second := 0, microsecond := 0 } 1) ∧
    pyLt t (parse_cron_next_run c t) := by
  have main : parse_cron_next_run c t =
      (if pyLt t { t with hour := pyInt hs, minute := pyInt ms, second := 0, microsecond := 0 }
       then { t with hour := pyInt hs, minute := pyInt ms, second := 0, microsecond := 0 }
       else addDays { t with hour := pyInt hs, minute := pyInt ms, second := 0, microsecond := 0 } 1) := by
    simp only [parse_cron_next_run, hsplit, hmd, hhd]
    simp only [Bool.and_self, Bool.true_and, decide_True, if_true]
    by_cases hc : pyLt t { t with hour := pyInt hs, minute := pyInt ms, second := 0, microsecond := 0 }
    · have hno : ¬ pyLe { t with hour := pyInt hs, minute := pyInt ms, second := 0, microsecond := 0 } t :=
        Nat.not_le.mpr hc
      rw [if_neg hno, if_pos hc]
    · have hyes : pyLe { t with hour := pyInt hs, minute := pyInt ms, second := 0, microsecond := 0 } t :=
        Nat.not_lt.mp hc
      rw [if_pos hyes, if_neg hc]
  refine ⟨main, ?_⟩
  rw [main]
  obtain ⟨hy, hm1, hm2, hd1, hd2, hh2, hmi2, hs2, hus2⟩ := hv
  by_cases hc : pyLt t { t with hour := pyInt hs, minute := pyInt ms, second := 0, microsecond := 0 }
  · rwa [if_pos hc]
  · rw [if_neg hc]
    obtain ⟨y, m, d, hh, mi, ss, us⟩ := t
    simp only at hd1 hd2 hh2 hmi2 hs2 hus2 hm1 hm2 hc ⊢
    show pyLt _ (addDays (nextDate ⟨y, m, d, pyInt hs, pyInt ms, 0, 0⟩) 0)
    show pyLt _ (nextDate ⟨y, m, d, pyInt hs, pyInt ms, 0, 0⟩)
    have hdim2 := (daysInMonth_bounds y m).2
    simp only [nextDate]
    split_ifs with h1 h2 <;> (simp only [pyLt, PyDateTime.key] at hc ⊢; omega)

/-- C8 witness: `0 9 * * *` evaluated at 09:05 on 2025-06-14 returns 09:00
on 2025-06-15. -/
theorem parse_cron_fixed_minute_hour_witness :
    parse_cron_next_run "0 9 * * *" ⟨2025, 6, 14, 9, 5, 0, 0⟩ =
      ⟨2025, 6, 15, 9, 0, 0, 0⟩ := by
  have h := parse_cron_fixed_minute_hour "0 9 * * *" "0" "9"
    ⟨2025, 6, 14, 9, 5, 0, 0⟩ (by decide) (by decide) (by decide) (by decide)
    (by decide) (by decide)
  exact h.1.trans (by decide)

end BuscaPisos